import Mathlib

/-
Verification of the `metrics` module (src/metrics/__init__.py).

The module keeps a thread-local ambient context (`context = threading.local()`),
an event recorder `event(name, **kw)`, two scoped helpers `Timer` and `Context`
(used with the `with` statement), and a WSGI adapter `MetricsContextApp`.

Shallow embedding conventions:
  * Python dicts with string keys become association lists (`FieldMap`) with
    Python's assignment semantics (replace in place if the key is present,
    append otherwise).
  * JSON-serializable Python values become the `Value` inductive; `Value.obj`
    stands for a Python object that `json.dumps` rejects with `TypeError`.
  * `time()` results are modelled as integers (`Time`); only capture and
    subtraction of clock values matter to the code.
  * `threading.local()` becomes a function from thread identity to a `Slot`
    holding the optional `kw` and `events` attributes (absent attribute =
    `none`, matching `getattr(context, 'kw', None)` and `del context.kw`).
  * The logger becomes a list of `LogEntry`; `LogEntry.info` carries the
    structured record whose JSON dump `log.info(json.dumps(self.kw))` emits,
    and is produced only when every field value is serializable.
  * Raised exceptions are `PyExc` values returned next to the state, so the
    state reached before the raise stays observable.
-/

namespace Metrics

abbrev Time := Int

abbrev ThreadId := String

/-- JSON-like Python values. `obj` is an object `json.dumps` cannot serialize. -/
inductive Value where
  | num (x : Int)
  | str (s : String)
  | bool (b : Bool)
  | list (xs : List Value)
  | dict (fs : List (String × Value))
  | obj (tag : String)

/-- A Python dict with string keys, as an association list in insertion order. -/
abbrev FieldMap := List (String × Value)

/-- Python dict assignment `d[k] = v`: replace in place, else append. -/
def FieldMap.set : FieldMap → String → Value → FieldMap
  | [], k, v => [(k, v)]
  | (k1, v1) :: fs, k, v =>
      if k1 = k then (k, v) :: fs else (k1, v1) :: FieldMap.set fs k v

/-- Python dict lookup `d.get(k)` / `k in d`. -/
def FieldMap.get : FieldMap → String → Option Value
  | [], _ => none
  | (k1, v1) :: fs, k => if k1 = k then some v1 else FieldMap.get fs k

/-- Removal of a key, used to model keyword unpacking `event(**self.kw)`,
which passes `self.kw['name']` to the `name` parameter and the remaining
entries as the fresh `kw` dict. -/
def FieldMap.erase : FieldMap → String → FieldMap
  | [], _ => []
  | (k1, v1) :: fs, k =>
      if k1 = k then FieldMap.erase fs k else (k1, v1) :: FieldMap.erase fs k

/-- Whether `json.dumps` accepts this value: every nested value must be a
number, string, bool, list or string-keyed dict; an `obj` raises `TypeError`. -/
def Value.serializable : Value → Bool
  | .num _ => true
  | .str _ => true
  | .bool _ => true
  | .obj _ => false
  | .list xs => go xs
  | .dict fs => goFields fs
where
  go : List Value → Bool
    | [] => true
    | v :: vs => v.serializable && go vs
  goFields : List (String × Value) → Bool
    | [] => true
    | (_, v) :: fs => v.serializable && goFields fs

/-- Whether `json.dumps` accepts a dict with these fields. -/
def serializableFields (fs : FieldMap) : Bool :=
  fs.all (fun kv => kv.2.serializable)

/-- One line sent to the logger named `metrics`.
`info` carries the structured record serialized by `json.dumps`;
`warn` carries the thread name and the dropped keyword payload from
`log.warn("%s: no context to record event: %r" % (thread, kw))`;
`debug` carries the thread name and the trace message. -/
inductive LogEntry where
  | debug (t : ThreadId) (msg : String)
  | info (record : FieldMap)
  | warn (t : ThreadId) (payload : FieldMap)

/-- Recognizes informational-severity entries (the emissions). -/
def LogEntry.isInfo : LogEntry → Bool
  | .info _ => true
  | _ => false

/-- Python exceptions the modelled code can raise. -/
inductive PyExc where
  | valueError (msg : String)
  | attributeError
  | typeError
  | keyError (k : String)
  | userExc (tag : String)

/-- The per-thread attributes of the `threading.local()` object `context`:
`kw` and `events`, each possibly absent. -/
structure Slot where
  kw : Option FieldMap
  events : Option (List FieldMap)

def Slot.empty : Slot := ⟨none, none⟩

/-- The thread-local store: each thread sees its own `Slot`. -/
abbrev State := ThreadId → Slot

def emptyState : State := fun _ => Slot.empty

/-- Replace one thread's slot. -/
def setSlot (s : State) (t : ThreadId) (sl : Slot) : State :=
  fun u => if u = t then sl else s u

/-- The dict appended by `event` when a context is active:
`if 'start' not in kw: kw['start'] = time()` then `kw['name'] = name`. -/
def eventRecord (now : Time) (name : String) (kw : FieldMap) : FieldMap :=
  FieldMap.set
    (if (FieldMap.get kw "start").isNone then FieldMap.set kw "start" (.num now) else kw)
    "name" (.str name)

/-- `event(name, **kw)` running on thread `t` at time `now`: look up
`getattr(context, 'events', None)`; warn and drop if absent, else append the
completed record to the active event list. It has no raise path. -/
def event (t : ThreadId) (now : Time) (name : String) (kw : FieldMap)
    (s : State) (log : List LogEntry) : State × List LogEntry :=
  match (s t).events with
  | none => (s, log ++ [.warn t kw])
  | some evs =>
      (setSlot s t ⟨(s t).kw, some (evs ++ [eventRecord now name kw])⟩, log)

/-- The dict content after `Timer.__exit__` runs
`self.kw.update(dict(name=self.name, start=self.start, duration=time()-self.start))`. -/
def timerKw (name : String) (start : Time) (kw : FieldMap) (now : Time) : FieldMap :=
  FieldMap.set (FieldMap.set (FieldMap.set kw "name" (.str name))
    "start" (.num start)) "duration" (.num (now - start))

/-- The event record a Timer contributes when a context is active. -/
def timerEvent (name : String) (start : Time) (kw : FieldMap) (now : Time) : FieldMap :=
  eventRecord now name (FieldMap.erase (timerKw name start kw now) "name")

/-- `Timer.__exit__` on thread `t`: update the timer's dict with `name`,
`start`, `duration`, then call `event(**self.kw)` (so `name` goes to the
`name` parameter and the rest is the keyword dict). -/
def Timer.close (t : ThreadId) (name : String) (start : Time) (kw : FieldMap)
    (now : Time) (s : State) (log : List LogEntry) : State × List LogEntry :=
  event t now name (FieldMap.erase (timerKw name start kw now) "name") s log

/-- Sequential dict assignments performed by a `with Timer(...) as tm` body:
`tm[k] = v` for each listed pair. -/
def applySets : FieldMap → List (String × Value) → FieldMap
  | kw, [] => kw
  | kw, (k, v) :: sets => applySets (FieldMap.set kw k v) sets

/-- A whole `with Timer(name, **kw0) as tm:` scope on thread `t`: entry
captures `start`; the body performs `sets` and then possibly raises
`bodyExc`; `__exit__` runs unconditionally at `now` and, returning `None`,
lets the body's exception continue to propagate. -/
def runTimerScope (t : ThreadId) (name : String) (kw0 : FieldMap)
    (sets : List (String × Value)) (bodyExc : Option PyExc)
    (start now : Time) (s : State) (log : List LogEntry) :
    State × List LogEntry × Option PyExc :=
  let r := Timer.close t name start (applySets kw0 sets) now s log
  (r.1, r.2, bodyExc)

/-- Python truthiness of `getattr(context, 'kw', None)`: `None` and the empty
dict are falsy, a non-empty dict is truthy. -/
def kwTruthy : Option FieldMap → Bool
  | none => false
  | some [] => false
  | some (_ :: _) => true

/-- `Context.__enter__` on thread `t` (the reading of `self.start = time()`
touches only the Context object): raise `ValueError` if a context is already
active per the truthiness test, else install the empty event list and the
constructor dict into the thread-local slot and log the debug trace. -/
def Context.enter (t : ThreadId) (kw : FieldMap) (s : State)
    (log : List LogEntry) : State × List LogEntry × Option PyExc :=
  if kwTruthy (s t).kw then
    (s, log, some (.valueError "There is already a context defined"))
  else
    (setSlot s t ⟨some kw, some []⟩, log ++ [.debug t "entering new context"], none)

/-- The record built by `Context.__exit__`:
`self.kw.update(dict(events=self.events, start=self.start, duration=time()-self.start))`. -/
def closeRecord (kw : FieldMap) (evs : List FieldMap) (start now : Time) : FieldMap :=
  FieldMap.set (FieldMap.set (FieldMap.set kw "events" (.list (evs.map .dict)))
    "start" (.num start)) "duration" (.num (now - start))

/-- `Context.__exit__` on thread `t`: `del context.kw; del context.events`
(an absent attribute raises `AttributeError`), then build the final record
and `log.info(json.dumps(self.kw))`; `json.dumps` raises `TypeError` on a
non-serializable field, in which case nothing is emitted (the deletions have
already happened), else the record and the closing debug trace are logged. -/
def Context.close (t : ThreadId) (start now : Time) (s : State)
    (log : List LogEntry) : State × List LogEntry × Option PyExc :=
  match s t with
  | ⟨none, _⟩ => (s, log, some .attributeError)
  | ⟨some _, none⟩ => (setSlot s t ⟨none, none⟩, log, some .attributeError)
  | ⟨some kw, some evs⟩ =>
      let s1 := setSlot s t ⟨none, none⟩
      let record := closeRecord kw evs start now
      if serializableFields record then
        (s1, log ++ [.info record, .debug t "leaving context"], none)
      else
        (s1, log, some .typeError)

/-- One primitive step business code can take while a context scope is open:
a call to `event`, the close of a `Timer` scope (its enter touches no shared
state), or a dict assignment `c[k] = v` on the ambient context dict. -/
inductive Instr where
  | recEvent (t : ThreadId) (now : Time) (name : String) (kw : FieldMap)
  | timerEnd (t : ThreadId) (name : String) (start : Time) (kw : FieldMap) (now : Time)
  | setField (t : ThreadId) (k : String) (v : Value)

/-- Run one instruction; none of them can raise. -/
def runInstr (s : State) (log : List LogEntry) : Instr → State × List LogEntry
  | .recEvent t now name kw => event t now name kw s log
  | .timerEnd t name start kw now => Timer.close t name start kw now s log
  | .setField t k v =>
      match (s t).kw with
      | some fs => (setSlot s t ⟨some (FieldMap.set fs k v), (s t).events⟩, log)
      | none => (s, log)

/-- Run a list of interleaved instructions (possibly from several threads). -/
def runBody : State → List LogEntry → List Instr → State × List LogEntry
  | s, log, [] => (s, log)
  | s, log, i :: is => runBody (runInstr s log i).1 (runInstr s log i).2 is

/-- Effect of one instruction on thread `t`'s ambient context dict. -/
def kwStep (t : ThreadId) (kw : FieldMap) : Instr → FieldMap
  | .setField u k v => if u = t then FieldMap.set kw k v else kw
  | _ => kw

/-- Thread `t`'s ambient context dict after a body runs. -/
def kwAfter (t : ThreadId) : FieldMap → List Instr → FieldMap
  | kw, [] => kw
  | kw, i :: is => kwAfter t (kwStep t kw i) is

/-- The event records one instruction appends to thread `t`'s active list. -/
def eventsOfInstr (t : ThreadId) : Instr → List FieldMap
  | .recEvent u now name kw => if u = t then [eventRecord now name kw] else []
  | .timerEnd u name start kw now => if u = t then [timerEvent name start kw now] else []
  | .setField _ _ _ => []

/-- The event records a body appends to thread `t`'s active list, in order. -/
def trace (t : ThreadId) : List Instr → List FieldMap
  | [] => []
  | i :: is => eventsOfInstr t i ++ trace t is

/-- A whole `with Context(**kw0) as c:` scope on thread `t`: `__enter__`
(raising aborts the scope: the body and `__exit__` never run), then the body
(its instructions, then possibly an exception `bodyExc`), then `__exit__`
unconditionally; `__exit__` returns `None`, so a pending body exception keeps
propagating after the emission, and an exception raised inside `__exit__`
itself supersedes it. -/
def runContext (t : ThreadId) (kw0 : FieldMap) (t0 : Time) (body : List Instr)
    (bodyExc : Option PyExc) (t1 : Time) (s : State) (log : List LogEntry) :
    State × List LogEntry × Option PyExc :=
  let e := Context.enter t kw0 s log
  match e.2.2 with
  | some exc => (e.1, e.2.1, some exc)
  | none =>
      let r := runBody e.1 e.2.1 body
      let x := Context.close t t0 t1 r.1 r.2
      match x.2.2 with
      | some exc => (x.1, x.2.1, some exc)
      | none => (x.1, x.2.1, bodyExc)

/-- The constructor keywords `MetricsContextApp.__call__` passes to `Context`:
the three request fields read from `environ` plus the current thread's name. -/
def wsgiSeed (ra pinfo qs : Value) (t : ThreadId) : FieldMap :=
  [("REMOTE_ADDR", ra), ("PATH_INFO", pinfo), ("QUERY_STRING", qs), ("thread", .str t)]

/-- `MetricsContextApp.__call__`: look up the three WSGI keys (a missing key
raises `KeyError`), open a Context seeded with them plus the thread name, set
`environ['metrics_context'] = c`, invoke the wrapped app (modelled as a pure
function from the updated environ and `start_response` to the instructions it
performs and its return value), and return its result through the scope. -/
def MetricsContextApp.call (app : FieldMap → Value → List Instr × Value)
    (environ : FieldMap) (sr : Value) (t : ThreadId) (t0 t1 : Time)
    (s : State) (log : List LogEntry) :
    State × List LogEntry × Option PyExc × Option Value :=
  match FieldMap.get environ "REMOTE_ADDR" with
  | none => (s, log, some (.keyError "REMOTE_ADDR"), none)
  | some ra =>
  match FieldMap.get environ "PATH_INFO" with
  | none => (s, log, some (.keyError "PATH_INFO"), none)
  | some pinfo =>
  match FieldMap.get environ "QUERY_STRING" with
  | none => (s, log, some (.keyError "QUERY_STRING"), none)
  | some qs =>
      let kw0 : FieldMap := wsgiSeed ra pinfo qs t
      let e := Context.enter t kw0 s log
      match e.2.2 with
      | some exc => (e.1, e.2.1, some exc, none)
      | none =>
          let ir := app (FieldMap.set environ "metrics_context" (.dict kw0)) sr
          let r := runBody e.1 e.2.1 ir.1
          let x := Context.close t t0 t1 r.1 r.2
          match x.2.2 with
          | some exc => (x.1, x.2.1, some exc, none)
          | none => (x.1, x.2.1, none, some ir.2)

/-! Section: Dictionary lemmas -/

theorem get_set_self (fs : FieldMap) (k : String) (v : Value) :
    FieldMap.get (FieldMap.set fs k v) k = some v := by
  induction fs with
  | nil => simp [FieldMap.set, FieldMap.get]
  | cons hd tl ih =>
      obtain ⟨k1, v1⟩ := hd
      by_cases h : k1 = k <;> simp [FieldMap.set, FieldMap.get, h, ih]

theorem get_set_ne (fs : FieldMap) (k k' : String) (v : Value) (h : k ≠ k') :
    FieldMap.get (FieldMap.set fs k v) k' = FieldMap.get fs k' := by
  induction fs with
  | nil => simp [FieldMap.set, FieldMap.get, h]
  | cons hd tl ih =>
      obtain ⟨k1, v1⟩ := hd
      by_cases h1 : k1 = k
      · have hne : ¬(k1 = k') := by rw [h1]; exact h
        simp [FieldMap.set, FieldMap.get, h1, h, hne]
      · by_cases h2 : k1 = k' <;> simp [FieldMap.set, FieldMap.get, h1, h2, ih,
          show ¬(k' = k) from fun e => h e.symm]

theorem get_erase_ne (fs : FieldMap) (k k' : String) (h : k ≠ k') :
    FieldMap.get (FieldMap.erase fs k) k' = FieldMap.get fs k' := by
  induction fs with
  | nil => simp [FieldMap.erase, FieldMap.get]
  | cons hd tl ih =>
      obtain ⟨k1, v1⟩ := hd
      by_cases h1 : k1 = k
      · have hne : ¬(k1 = k') := by rw [h1]; exact h
        simp [FieldMap.erase, FieldMap.get, h1, h, hne, ih]
      · by_cases h2 : k1 = k' <;> simp [FieldMap.erase, FieldMap.get, h1, h2, ih,
          show ¬(k' = k) from fun e => h e.symm]

/-! Section: Slot and state lemmas -/

theorem setSlot_self (s : State) (t : ThreadId) (sl : Slot) :
    setSlot s t sl t = sl := by
  simp [setSlot]

theorem setSlot_ne (s : State) (t u : ThreadId) (sl : Slot) (h : u ≠ t) :
    setSlot s t sl u = s u := by
  simp [setSlot, h]

/-! Section: Event recorder lemmas -/

theorem event_noCtx (t : ThreadId) (now : Time) (name : String) (kw : FieldMap)
    (s : State) (log : List LogEntry) (h : (s t).events = none) :
    event t now name kw s log = (s, log ++ [.warn t kw]) := by
  unfold event
  rw [h]

theorem event_ctx (t : ThreadId) (now : Time) (name : String) (kw : FieldMap)
    (s : State) (log : List LogEntry) (evs : List FieldMap)
    (h : (s t).events = some evs) :
    event t now name kw s log =
      (setSlot s t ⟨(s t).kw, some (evs ++ [eventRecord now name kw])⟩, log) := by
  unfold event
  rw [h]

theorem eventRecord_get_name (now : Time) (n : String) (kw : FieldMap) :
    FieldMap.get (eventRecord now n kw) "name" = some (.str n) := by
  unfold eventRecord
  split <;> exact get_set_self ..

theorem eventRecord_get_start_isSome (now : Time) (n : String) (kw : FieldMap) :
    (FieldMap.get (eventRecord now n kw) "start").isSome = true := by
  unfold eventRecord
  split
  next h =>
    rw [get_set_ne _ _ _ _ (by decide), get_set_self]
    rfl
  next h =>
    rw [get_set_ne _ _ _ _ (by decide)]
    cases ho : FieldMap.get kw "start" with
    | none => rw [ho] at h; simp at h
    | some v => rfl

theorem eventRecord_get_duration (now : Time) (n : String) (kw : FieldMap) :
    FieldMap.get (eventRecord now n kw) "duration" = FieldMap.get kw "duration" := by
  unfold eventRecord
  split
  next h => rw [get_set_ne _ _ _ _ (by decide), get_set_ne _ _ _ _ (by decide)]
  next h => rw [get_set_ne _ _ _ _ (by decide)]

/-! Section: Timer event lemmas -/

theorem timerKw_erase_get_start (n : String) (st : Time) (kw : FieldMap) (now : Time) :
    FieldMap.get (FieldMap.erase (timerKw n st kw now) "name") "start"
      = some (.num st) := by
  unfold timerKw
  rw [get_erase_ne _ _ _ (by decide), get_set_ne _ _ _ _ (by decide), get_set_self]

theorem timerEvent_get_name (n : String) (st : Time) (kw : FieldMap) (now : Time) :
    FieldMap.get (timerEvent n st kw now) "name" = some (.str n) :=
  eventRecord_get_name ..

theorem timerEvent_get_start (n : String) (st : Time) (kw : FieldMap) (now : Time) :
    FieldMap.get (timerEvent n st kw now) "start" = some (.num st) := by
  unfold timerEvent eventRecord
  rw [timerKw_erase_get_start]
  simp only [Option.isNone_some, Bool.false_eq_true, if_false]
  rw [get_set_ne _ _ _ _ (by decide), timerKw_erase_get_start]

theorem timerEvent_get_duration (n : String) (st : Time) (kw : FieldMap) (now : Time) :
    FieldMap.get (timerEvent n st kw now) "duration" = some (.num (now - st)) := by
  unfold timerEvent eventRecord
  rw [timerKw_erase_get_start]
  simp only [Option.isNone_some, Bool.false_eq_true, if_false]
  rw [get_set_ne _ _ _ _ (by decide), get_erase_ne _ _ _ (by decide)]
  unfold timerKw
  rw [get_set_self]

theorem timerEvent_get_other (n : String) (st : Time) (kw : FieldMap) (now : Time)
    (k : String) (h1 : k ≠ "name") (h2 : k ≠ "start") (h3 : k ≠ "duration") :
    FieldMap.get (timerEvent n st kw now) k = FieldMap.get kw k := by
  unfold timerEvent eventRecord
  rw [timerKw_erase_get_start]
  simp only [Option.isNone_some, Bool.false_eq_true, if_false]
  rw [get_set_ne _ _ _ _ (Ne.symm h1), get_erase_ne _ _ _ (Ne.symm h1)]
  unfold timerKw
  rw [get_set_ne _ _ _ _ (Ne.symm h3), get_set_ne _ _ _ _ (Ne.symm h2),
    get_set_ne _ _ _ _ (Ne.symm h1)]

/-! Section: Close record lemmas -/

theorem closeRecord_get_start (kw : FieldMap) (evs : List FieldMap) (t0 t1 : Time) :
    FieldMap.get (closeRecord kw evs t0 t1) "start" = some (.num t0) := by
  unfold closeRecord
  rw [get_set_ne _ _ _ _ (by decide), get_set_self]

theorem closeRecord_get_duration (kw : FieldMap) (evs : List FieldMap) (t0 t1 : Time) :
    FieldMap.get (closeRecord kw evs t0 t1) "duration" = some (.num (t1 - t0)) := by
  unfold closeRecord
  rw [get_set_self]

theorem closeRecord_get_events (kw : FieldMap) (evs : List FieldMap) (t0 t1 : Time) :
    FieldMap.get (closeRecord kw evs t0 t1) "events"
      = some (.list (evs.map .dict)) := by
  unfold closeRecord
  rw [get_set_ne _ _ _ _ (by decide), get_set_ne _ _ _ _ (by decide), get_set_self]

theorem closeRecord_get_other (kw : FieldMap) (evs : List FieldMap) (t0 t1 : Time)
    (k : String) (h1 : k ≠ "events") (h2 : k ≠ "start") (h3 : k ≠ "duration") :
    FieldMap.get (closeRecord kw evs t0 t1) k = FieldMap.get kw k := by
  unfold closeRecord
  rw [get_set_ne _ _ _ _ (Ne.symm h3), get_set_ne _ _ _ _ (Ne.symm h2),
    get_set_ne _ _ _ _ (Ne.symm h1)]

/-! Section: Context manager lemmas -/

theorem contextEnter_free (t : ThreadId) (kw0 : FieldMap) (s : State)
    (log : List LogEntry) (h : kwTruthy (s t).kw = false) :
    Context.enter t kw0 s log =
      (setSlot s t ⟨some kw0, some []⟩, log ++ [.debug t "entering new context"], none) := by
  simp [Context.enter, h]

theorem contextEnter_busy (t : ThreadId) (kw0 : FieldMap) (s : State)
    (log : List LogEntry) (h : kwTruthy (s t).kw = true) :
    Context.enter t kw0 s log =
      (s, log, some (.valueError "There is already a context defined")) := by
  simp [Context.enter, h]

theorem contextClose_emit (t : ThreadId) (t0 t1 : Time) (s : State)
    (log : List LogEntry) (kw : FieldMap) (evs : List FieldMap)
    (h : s t = ⟨some kw, some evs⟩)
    (hser : serializableFields (closeRecord kw evs t0 t1) = true) :
    Context.close t t0 t1 s log =
      (setSlot s t ⟨none, none⟩,
       log ++ [.info (closeRecord kw evs t0 t1), .debug t "leaving context"], none) := by
  unfold Context.close
  rw [h]
  simp [hser]

theorem contextClose_serFail (t : ThreadId) (t0 t1 : Time) (s : State)
    (log : List LogEntry) (kw : FieldMap) (evs : List FieldMap)
    (h : s t = ⟨some kw, some evs⟩)
    (hser : serializableFields (closeRecord kw evs t0 t1) = false) :
    Context.close t t0 t1 s log =
      (setSlot s t ⟨none, none⟩, log, some .typeError) := by
  unfold Context.close
  rw [h]
  simp [hser]

/-! Section: Body execution lemmas -/

theorem runInstr_step (t : ThreadId) (i : Instr) (s : State) (log : List LogEntry)
    (kw : FieldMap) (evs : List FieldMap) (h : s t = ⟨some kw, some evs⟩) :
    (runInstr s log i).1 t = ⟨some (kwStep t kw i), some (evs ++ eventsOfInstr t i)⟩
    ∧ ((runInstr s log i).2).filter LogEntry.isInfo = log.filter LogEntry.isInfo := by
  cases i with
  | recEvent u now name kw1 =>
      by_cases hu : u = t
      · subst hu
        rw [show runInstr s log (.recEvent u now name kw1) = event u now name kw1 s log from rfl,
          event_ctx u now name kw1 s log evs (by rw [h])]
        refine ⟨?_, rfl⟩
        simp [setSlot, h, kwStep, eventsOfInstr]
      · rw [show runInstr s log (.recEvent u now name kw1) = event u now name kw1 s log from rfl]
        cases hev : (s u).events with
        | none =>
            rw [event_noCtx u now name kw1 s log hev]
            refine ⟨?_, ?_⟩
            · simp [h, kwStep, eventsOfInstr, hu]
            · simp [List.filter_append, LogEntry.isInfo]
        | some evsU =>
            rw [event_ctx u now name kw1 s log evsU hev]
            refine ⟨?_, rfl⟩
            simp [setSlot, h, kwStep, eventsOfInstr, hu, show ¬(t = u) from fun e => hu e.symm]
  | timerEnd u name st kw1 now =>
      by_cases hu : u = t
      · subst hu
        rw [show runInstr s log (.timerEnd u name st kw1 now)
            = event u now name (FieldMap.erase (timerKw name st kw1 now) "name") s log from rfl,
          event_ctx u now name _ s log evs (by rw [h])]
        refine ⟨?_, rfl⟩
        simp [setSlot, h, kwStep, eventsOfInstr, timerEvent]
      · rw [show runInstr s log (.timerEnd u name st kw1 now)
            = event u now name (FieldMap.erase (timerKw name st kw1 now) "name") s log from rfl]
        cases hev : (s u).events with
        | none =>
            rw [event_noCtx u now name _ s log hev]
            refine ⟨?_, ?_⟩
            · simp [h, kwStep, eventsOfInstr, hu]
            · simp [List.filter_append, LogEntry.isInfo]
        | some evsU =>
            rw [event_ctx u now name _ s log evsU hev]
            refine ⟨?_, rfl⟩
            simp [setSlot, h, kwStep, eventsOfInstr, hu, show ¬(t = u) from fun e => hu e.symm]
  | setField u k v =>
      by_cases hu : u = t
      · subst hu
        rw [show runInstr s log (.setField u k v)
            = (match (s u).kw with
               | some fs => (setSlot s u ⟨some (FieldMap.set fs k v), (s u).events⟩, log)
               | none => (s, log)) from rfl]
        rw [h]
        refine ⟨?_, rfl⟩
        simp [setSlot, h, kwStep, eventsOfInstr]
      · rw [show runInstr s log (.setField u k v)
            = (match (s u).kw with
               | some fs => (setSlot s u ⟨some (FieldMap.set fs k v), (s u).events⟩, log)
               | none => (s, log)) from rfl]
        cases hkw : (s u).kw with
        | none =>
            refine ⟨?_, rfl⟩
            simp [h, kwStep, eventsOfInstr, hu]
        | some fs =>
            refine ⟨?_, rfl⟩
            simp [setSlot, h, kwStep, eventsOfInstr, hu, show ¬(t = u) from fun e => hu e.symm]

theorem runBody_spec (t : ThreadId) (is : List Instr) :
    ∀ (s : State) (log : List LogEntry) (kw : FieldMap) (evs : List FieldMap),
      s t = ⟨some kw, some evs⟩ →
      (runBody s log is).1 t = ⟨some (kwAfter t kw is), some (evs ++ trace t is)⟩
      ∧ ((runBody s log is).2).filter LogEntry.isInfo = log.filter LogEntry.isInfo := by
  induction is with
  | nil =>
      intro s log kw evs h
      refine ⟨?_, rfl⟩
      simp [runBody, kwAfter, trace, h]
  | cons i is ih =>
      intro s log kw evs h
      obtain ⟨h1, h2⟩ := runInstr_step t i s log kw evs h
      obtain ⟨h3, h4⟩ := ih (runInstr s log i).1 (runInstr s log i).2
        (kwStep t kw i) (evs ++ eventsOfInstr t i) h1
      refine ⟨?_, ?_⟩
      · rw [show runBody s log (i :: is)
            = runBody (runInstr s log i).1 (runInstr s log i).2 is from rfl, h3]
        simp [kwAfter, trace, List.append_assoc]
      · rw [show (runBody s log (i :: is)).2
            = (runBody (runInstr s log i).1 (runInstr s log i).2 is).2 from rfl, h4, h2]

theorem runContext_spec (t : ThreadId) (kw0 : FieldMap) (t0 : Time) (body : List Instr)
    (bodyExc : Option PyExc) (t1 : Time) (s : State) (log : List LogEntry)
    (hFree : kwTruthy (s t).kw = false)
    (hSer : serializableFields (closeRecord (kwAfter t kw0 body) (trace t body) t0 t1) = true) :
    runContext t kw0 t0 body bodyExc t1 s log =
      (setSlot (runBody (setSlot s t ⟨some kw0, some []⟩)
          (log ++ [.debug t "entering new context"]) body).1 t ⟨none, none⟩,
       (runBody (setSlot s t ⟨some kw0, some []⟩)
          (log ++ [.debug t "entering new context"]) body).2
         ++ [.info (closeRecord (kwAfter t kw0 body) (trace t body) t0 t1),
             .debug t "leaving context"],
       bodyExc) := by
  obtain ⟨h1, h2⟩ := runBody_spec t body (setSlot s t ⟨some kw0, some []⟩)
    (log ++ [.debug t "entering new context"]) kw0 [] (by rw [setSlot_self])
  have h1' : (runBody (setSlot s t ⟨some kw0, some []⟩)
      (log ++ [.debug t "entering new context"]) body).1 t
      = ⟨some (kwAfter t kw0 body), some (trace t body)⟩ := by
    rw [h1]
    simp
  unfold runContext
  rw [contextEnter_free t kw0 s log hFree]
  dsimp only
  rw [contextClose_emit t t0 t1 _ _ _ _ h1' hSer]

theorem trace_recEvents (t : ThreadId) (calls : List (Time × String × FieldMap)) :
    trace t (calls.map fun c => Instr.recEvent t c.1 c.2.1 c.2.2)
      = calls.map fun c => eventRecord c.1 c.2.1 c.2.2 := by
  induction calls with
  | nil => simp [trace]
  | cons c cs ih => simp [trace, eventsOfInstr, ih]

theorem kwAfter_recEvents (t : ThreadId) (kw : FieldMap)
    (calls : List (Time × String × FieldMap)) :
    kwAfter t kw (calls.map fun c => Instr.recEvent t c.1 c.2.1 c.2.2) = kw := by
  induction calls generalizing kw with
  | nil => simp [kwAfter]
  | cons c cs ih => simp [kwAfter, kwStep, ih]

theorem trace_mem_shape (t : ThreadId) (is : List Instr) (e : FieldMap)
    (he : e ∈ trace t is) : ∃ now n kw, e = eventRecord now n kw := by
  induction is with
  | nil => simp [trace] at he
  | cons i is ih =>
      simp only [trace, List.mem_append] at he
      rcases he with he | he
      · cases i with
        | recEvent u now n kw =>
            simp only [eventsOfInstr] at he
            by_cases hu : u = t
            · rw [if_pos hu] at he
              simp only [List.mem_singleton] at he
              exact ⟨now, n, kw, he⟩
            · rw [if_neg hu] at he
              simp at he
        | timerEnd u n st kw now =>
            simp only [eventsOfInstr] at he
            by_cases hu : u = t
            · rw [if_pos hu] at he
              simp only [List.mem_singleton] at he
              exact ⟨now, n, FieldMap.erase (timerKw n st kw now) "name", he⟩
            · rw [if_neg hu] at he
              simp at he
        | setField u k v => simp [eventsOfInstr] at he
      · exact ih he

/-! Section: Claim C1 -/

/-- C1 counterexample: a context opened with an empty constructor dict is
active (both thread-local attributes installed), yet because
`Context.__enter__` tests `getattr(context, 'kw', None)` for truthiness and
an empty dict is falsy, a second open on the same thread raises nothing and
silently overwrites the ambient state with its own dict. -/
theorem c1_counterexample :
    (Context.enter "main" [] emptyState []).1 "main" = ⟨some [], some []⟩
    ∧ (Context.enter "main" [("a", Value.num 1)]
        (Context.enter "main" [] emptyState []).1
        (Context.enter "main" [] emptyState []).2.1).2.2 = none
    ∧ ((Context.enter "main" [("a", Value.num 1)]
        (Context.enter "main" [] emptyState []).1
        (Context.enter "main" [] emptyState []).2.1).1 "main").kw
        = some [("a", Value.num 1)] :=
  ⟨rfl, rfl, rfl⟩

/-- C1 (amended): on a thread whose active context has a non-empty (truthy)
field map, opening a second context raises `ValueError` and leaves the
thread-local state and the log exactly unchanged, and the first context still
closes and emits normally afterwards. -/
theorem c1_theorem (s : State) (log : List LogEntry) (t : ThreadId)
    (kw2 : FieldMap) (t0 t1 : Time)
    (hActive : kwTruthy (s t).kw = true) :
    Context.enter t kw2 s log
      = (s, log, some (.valueError "There is already a context defined"))
    ∧ (∀ kw evs, s t = ⟨some kw, some evs⟩ →
        serializableFields (closeRecord kw evs t0 t1) = true →
        Context.close t t0 t1 s log
          = (setSlot s t ⟨none, none⟩,
             log ++ [.info (closeRecord kw evs t0 t1), .debug t "leaving context"],
             none)) :=
  ⟨contextEnter_busy t kw2 s log hActive,
   fun kw evs h hser => contextClose_emit t t0 t1 s log kw evs h hser⟩

/-- C1 witness: concrete instantiation of the amended claim. -/
theorem c1_witness :
    kwTruthy ((setSlot emptyState "main" ⟨some [("b", Value.num 2)], some []⟩ "main").kw) = true
    ∧ Context.enter "main" [("a", Value.num 1)]
        (setSlot emptyState "main" ⟨some [("b", Value.num 2)], some []⟩) []
        = (setSlot emptyState "main" ⟨some [("b", Value.num 2)], some []⟩, [],
           some (.valueError "There is already a context defined"))
    ∧ Context.close "main" 0 1
        (setSlot emptyState "main" ⟨some [("b", Value.num 2)], some []⟩) []
        = (setSlot (setSlot emptyState "main" ⟨some [("b", Value.num 2)], some []⟩)
             "main" ⟨none, none⟩,
           [] ++ [.info (closeRecord [("b", Value.num 2)] [] 0 1),
                  .debug "main" "leaving context"],
           none) :=
  ⟨rfl,
   (c1_theorem (setSlot emptyState "main" ⟨some [("b", Value.num 2)], some []⟩)
     [] "main" [("a", Value.num 1)] 0 1 rfl).1,
   (c1_theorem (setSlot emptyState "main" ⟨some [("b", Value.num 2)], some []⟩)
     [] "main" [("a", Value.num 1)] 0 1 rfl).2 [("b", Value.num 2)] [] rfl rfl⟩

/-! Section: Claim C2 -/

/-- C2 counterexample: with a context field that `json.dumps` rejects, the
scope closes with zero informational emissions and `TypeError` propagating,
so the unconditional "exactly one emission per instance" reading fails. -/
theorem c2_counterexample :
    ((runContext "main" [("x", Value.obj "o")] 0 [] none 1 emptyState []).2.1).filter
        LogEntry.isInfo = []
    ∧ (runContext "main" [("x", Value.obj "o")] 0 [] none 1 emptyState []).2.2
        = some PyExc.typeError :=
  ⟨rfl, rfl⟩

/-- C2 (amended): for a scope whose final record is serializable, close runs
unconditionally and produces exactly one informational emission whose
`events` are exactly the events recorded on the scope's own thread during the
body, in order (events from other threads never enter it); the thread-local
slot is uninstalled, and a body exception still propagates after the
emission. -/
theorem c2_theorem (t : ThreadId) (kw0 : FieldMap) (t0 : Time) (body : List Instr)
    (bodyExc : Option PyExc) (t1 : Time) (s : State) (log : List LogEntry)
    (hFree : kwTruthy (s t).kw = false)
    (hSer : serializableFields
        (closeRecord (kwAfter t kw0 body) (trace t body) t0 t1) = true) :
    (runContext t kw0 t0 body bodyExc t1 s log).2.2 = bodyExc
    ∧ (runContext t kw0 t0 body bodyExc t1 s log).1 t = ⟨none, none⟩
    ∧ ((runContext t kw0 t0 body bodyExc t1 s log).2.1).filter LogEntry.isInfo
        = log.filter LogEntry.isInfo
          ++ [.info (closeRecord (kwAfter t kw0 body) (trace t body) t0 t1)]
    ∧ FieldMap.get (closeRecord (kwAfter t kw0 body) (trace t body) t0 t1) "events"
        = some (.list ((trace t body).map .dict)) := by
  obtain ⟨h1, h2⟩ := runBody_spec t body (setSlot s t ⟨some kw0, some []⟩)
    (log ++ [.debug t "entering new context"]) kw0 [] (by rw [setSlot_self])
  rw [runContext_spec t kw0 t0 body bodyExc t1 s log hFree hSer]
  refine ⟨rfl, by simp [setSlot_self], ?_, closeRecord_get_events ..⟩
  simp [List.filter_append, LogEntry.isInfo, h2]

/-- C2 witness: concrete instantiation of the amended claim, with a body
exception that is seen to propagate after the emission. -/
theorem c2_witness :
    kwTruthy ((emptyState "w2").kw) = false
    ∧ serializableFields
        (closeRecord (kwAfter "w2" [("a", Value.num 1)] []) (trace "w2" []) 0 2) = true
    ∧ (runContext "w2" [("a", Value.num 1)] 0 [] (some (.userExc "boom")) 2
        emptyState []).2.2 = some (PyExc.userExc "boom")
    ∧ (runContext "w2" [("a", Value.num 1)] 0 [] (some (.userExc "boom")) 2
        emptyState []).1 "w2" = ⟨none, none⟩
    ∧ ((runContext "w2" [("a", Value.num 1)] 0 [] (some (.userExc "boom")) 2
        emptyState []).2.1).filter LogEntry.isInfo
        = ([] : List LogEntry).filter LogEntry.isInfo
          ++ [.info (closeRecord (kwAfter "w2" [("a", Value.num 1)] [])
                (trace "w2" []) 0 2)]
    ∧ FieldMap.get (closeRecord (kwAfter "w2" [("a", Value.num 1)] [])
          (trace "w2" []) 0 2) "events"
        = some (.list ((trace "w2" []).map .dict)) := by
  refine ⟨rfl, rfl, ?_⟩
  exact c2_theorem "w2" [("a", Value.num 1)] 0 [] (some (.userExc "boom")) 2
    emptyState [] rfl rfl

/-! Section: Claim C3 -/

/-- C3: inside one open context, a sequence of `event` calls yields an
emitted `events` array holding exactly those events, in call order, with no
reordering and no deduplication (duplicates map to duplicate entries). -/
theorem c3_theorem (t : ThreadId) (calls : List (Time × String × FieldMap))
    (kw0 : FieldMap) (t0 t1 : Time) (bodyExc : Option PyExc) (s : State)
    (log : List LogEntry)
    (hFree : kwTruthy (s t).kw = false)
    (hSer : serializableFields (closeRecord kw0
        (calls.map fun c => eventRecord c.1 c.2.1 c.2.2) t0 t1) = true) :
    ((runContext t kw0 t0 (calls.map fun c => Instr.recEvent t c.1 c.2.1 c.2.2)
        bodyExc t1 s log).2.1).filter LogEntry.isInfo
      = log.filter LogEntry.isInfo
        ++ [.info (closeRecord kw0
              (calls.map fun c => eventRecord c.1 c.2.1 c.2.2) t0 t1)]
    ∧ FieldMap.get (closeRecord kw0
          (calls.map fun c => eventRecord c.1 c.2.1 c.2.2) t0 t1) "events"
      = some (.list ((calls.map fun c => eventRecord c.1 c.2.1 c.2.2).map .dict)) := by
  have hSer1 : serializableFields (closeRecord
      (kwAfter t kw0 (calls.map fun c => Instr.recEvent t c.1 c.2.1 c.2.2))
      (trace t (calls.map fun c => Instr.recEvent t c.1 c.2.1 c.2.2)) t0 t1) = true := by
    rw [kwAfter_recEvents, trace_recEvents]
    exact hSer
  obtain ⟨h1, h2⟩ := runBody_spec t
    (calls.map fun c => Instr.recEvent t c.1 c.2.1 c.2.2)
    (setSlot s t ⟨some kw0, some []⟩)
    (log ++ [.debug t "entering new context"]) kw0 [] (by rw [setSlot_self])
  rw [runContext_spec t kw0 t0 _ bodyExc t1 s log hFree hSer1]
  refine ⟨?_, closeRecord_get_events ..⟩
  simp [List.filter_append, LogEntry.isInfo, h2, kwAfter_recEvents, trace_recEvents]

/-- C3 witness: two recorded events appear in call order. -/
theorem c3_witness :
    kwTruthy ((emptyState "w3").kw) = false
    ∧ serializableFields (closeRecord [("a", Value.num 1)]
        ([(5, "e1", ([] : FieldMap)), (6, "e2", ([] : FieldMap))].map
          fun c => eventRecord c.1 c.2.1 c.2.2) 0 9) = true
    ∧ ((runContext "w3" [("a", Value.num 1)] 0
          ([(5, "e1", ([] : FieldMap)), (6, "e2", ([] : FieldMap))].map
            fun c => Instr.recEvent "w3" c.1 c.2.1 c.2.2) none 9
          emptyState []).2.1).filter LogEntry.isInfo
        = ([] : List LogEntry).filter LogEntry.isInfo
          ++ [.info (closeRecord [("a", Value.num 1)]
                ([(5, "e1", ([] : FieldMap)), (6, "e2", ([] : FieldMap))].map
                  fun c => eventRecord c.1 c.2.1 c.2.2) 0 9)]
    ∧ FieldMap.get (closeRecord [("a", Value.num 1)]
          ([(5, "e1", ([] : FieldMap)), (6, "e2", ([] : FieldMap))].map
            fun c => eventRecord c.1 c.2.1 c.2.2) 0 9) "events"
        = some (.list (([(5, "e1", ([] : FieldMap)), (6, "e2", ([] : FieldMap))].map
            fun c => eventRecord c.1 c.2.1 c.2.2).map .dict)) := by
  refine ⟨rfl, rfl, ?_⟩
  exact c3_theorem "w3" [(5, "e1", []), (6, "e2", [])] [("a", Value.num 1)] 0 9
    none emptyState [] rfl rfl

/-! Section: Claim C4 -/

/-- C4: `event` with no active context on the calling thread is a total
function (it has no raise path): it returns the state completely unchanged
and appends exactly one warning-level entry naming the calling thread and
the dropped keyword payload; in particular nothing is emitted at
informational severity and no event list anywhere gains an entry. -/
theorem c4_theorem (t : ThreadId) (now : Time) (name : String) (kw : FieldMap)
    (s : State) (log : List LogEntry) (h : (s t).events = none) :
    event t now name kw s log = (s, log ++ [.warn t kw])
    ∧ ((event t now name kw s log).2).filter LogEntry.isInfo
        = log.filter LogEntry.isInfo := by
  refine ⟨event_noCtx t now name kw s log h, ?_⟩
  rw [event_noCtx t now name kw s log h]
  simp [List.filter_append, LogEntry.isInfo]

/-- C4 witness: concrete no-context call. -/
theorem c4_witness :
    (emptyState "w4").events = none
    ∧ event "w4" 7 "bar" [("f", Value.num 9)] emptyState []
        = (emptyState, [] ++ [.warn "w4" [("f", Value.num 9)]])
    ∧ ((event "w4" 7 "bar" [("f", Value.num 9)] emptyState []).2).filter LogEntry.isInfo
        = ([] : List LogEntry).filter LogEntry.isInfo := by
  refine ⟨rfl, ?_⟩
  exact c4_theorem "w4" 7 "bar" [("f", Value.num 9)] emptyState [] rfl

/-! Section: Claim C5 -/

/-- C5 counterexample: a Timer scope on a thread with no active context
records no event record anywhere (the state is returned unchanged); the exit
path runs but only produces the warning diagnostic, refuting the
unconditional "every Timer scope records exactly one Event Record". -/
theorem c5_counterexample :
    runTimerScope "main" "foo" [] [] none 0 3 emptyState []
      = (emptyState,
         [.warn "main" [("start", Value.num 0), ("duration", Value.num 3)]],
         none) :=
  rfl

/-- C5 (amended): a Timer scope on a thread with an active context records
exactly one event record, whose `start` is the scope-entry time and whose
`duration` is close time minus open time, and this holds regardless of
whether the scope body raised: the exit path always runs and the body's
exception (if any) propagates unchanged afterwards. -/
theorem c5_theorem (t : ThreadId) (name : String) (kw0 : FieldMap)
    (sets : List (String × Value)) (bodyExc : Option PyExc) (start now : Time)
    (s : State) (log : List LogEntry) (evs : List FieldMap)
    (hActive : (s t).events = some evs) :
    runTimerScope t name kw0 sets bodyExc start now s log
      = (setSlot s t ⟨(s t).kw,
           some (evs ++ [timerEvent name start (applySets kw0 sets) now])⟩,
         log, bodyExc)
    ∧ FieldMap.get (timerEvent name start (applySets kw0 sets) now) "start"
        = some (.num start)
    ∧ FieldMap.get (timerEvent name start (applySets kw0 sets) now) "duration"
        = some (.num (now - start)) := by
  refine ⟨?_, timerEvent_get_start .., timerEvent_get_duration ..⟩
  unfold runTimerScope Timer.close
  rw [event_ctx t now name _ s log evs hActive]
  simp [timerEvent]

/-- C5 witness: concrete instantiation of the amended claim with a raising
body. -/
theorem c5_witness :
    ((setSlot emptyState "w5" ⟨some [], some []⟩) "w5").events = some []
    ∧ runTimerScope "w5" "foo" [("d", Value.num 7)] [] (some (.userExc "boom")) 1 4
        (setSlot emptyState "w5" ⟨some [], some []⟩) []
        = (setSlot (setSlot emptyState "w5" ⟨some [], some []⟩) "w5"
             ⟨((setSlot emptyState "w5" ⟨some [], some []⟩) "w5").kw,
              some ([] ++ [timerEvent "foo" 1 (applySets [("d", Value.num 7)] []) 4])⟩,
           [], some (PyExc.userExc "boom"))
    ∧ FieldMap.get (timerEvent "foo" 1 (applySets [("d", Value.num 7)] []) 4) "start"
        = some (Value.num 1)
    ∧ FieldMap.get (timerEvent "foo" 1 (applySets [("d", Value.num 7)] []) 4) "duration"
        = some (Value.num 3) := by
  refine ⟨rfl, ?_⟩
  exact c5_theorem "w5" "foo" [("d", Value.num 7)] [] (some (.userExc "boom")) 1 4
    (setSlot emptyState "w5" ⟨some [], some []⟩) [] [] rfl

/-! Section: Claim C6 -/

/-- C6 counterexample: the body records a single plain `event` (no Timer
anywhere) whose caller-supplied fields include `duration`, and the emitted
record's sole event carries that `duration`; so `duration` is not present
exactly for Timer-produced events. -/
theorem c6_counterexample :
    (runContext "main" [("a", Value.num 1)]
        0 [Instr.recEvent "main" 5 "bar" [("duration", Value.num 9)]] none 10
        emptyState []).2.1
      = [.debug "main" "entering new context",
         .info [("a", Value.num 1),
           ("events", Value.list [Value.dict
             [("duration", Value.num 9), ("start", Value.num 5),
              ("name", Value.str "bar")]]),
           ("start", Value.num 0), ("duration", Value.num 10)],
         .debug "main" "leaving context"]
    ∧ FieldMap.get [("duration", Value.num 9), ("start", Value.num 5),
          ("name", Value.str "bar")] "duration"
        = some (Value.num 9) :=
  ⟨rfl, rfl⟩

/-- C6 (amended): the record emitted at context close (at informational
severity, when serializable) holds all caller-supplied context fields plus
`start` (number), `duration` (number) and `events` (the recorded dicts);
every event has a string `name` and a `start`; a Timer-produced event always
has `duration` equal to its elapsed time, and a plain recorded event carries
`duration` exactly when the caller supplied one. -/
theorem c6_theorem (t : ThreadId) (kw0 : FieldMap) (t0 : Time) (body : List Instr)
    (bodyExc : Option PyExc) (t1 : Time) (s : State) (log : List LogEntry)
    (hFree : kwTruthy (s t).kw = false)
    (hSer : serializableFields
        (closeRecord (kwAfter t kw0 body) (trace t body) t0 t1) = true) :
    ((runContext t kw0 t0 body bodyExc t1 s log).2.1).filter LogEntry.isInfo
      = log.filter LogEntry.isInfo
        ++ [.info (closeRecord (kwAfter t kw0 body) (trace t body) t0 t1)]
    ∧ FieldMap.get (closeRecord (kwAfter t kw0 body) (trace t body) t0 t1) "start"
        = some (.num t0)
    ∧ FieldMap.get (closeRecord (kwAfter t kw0 body) (trace t body) t0 t1) "duration"
        = some (.num (t1 - t0))
    ∧ FieldMap.get (closeRecord (kwAfter t kw0 body) (trace t body) t0 t1) "events"
        = some (.list ((trace t body).map .dict))
    ∧ (∀ k, k ≠ "events" → k ≠ "start" → k ≠ "duration" →
        FieldMap.get (closeRecord (kwAfter t kw0 body) (trace t body) t0 t1) k
          = FieldMap.get (kwAfter t kw0 body) k)
    ∧ (∀ e, e ∈ trace t body →
        (∃ nm, FieldMap.get e "name" = some (.str nm))
        ∧ (FieldMap.get e "start").isSome = true)
    ∧ (∀ n st kw now2, FieldMap.get (timerEvent n st kw now2) "duration"
        = some (.num (now2 - st)))
    ∧ (∀ now2 n kw, FieldMap.get (eventRecord now2 n kw) "duration"
        = FieldMap.get kw "duration") := by
  obtain ⟨hb1, hb2⟩ := runBody_spec t body (setSlot s t ⟨some kw0, some []⟩)
    (log ++ [.debug t "entering new context"]) kw0 [] (by rw [setSlot_self])
  rw [runContext_spec t kw0 t0 body bodyExc t1 s log hFree hSer]
  refine ⟨?_, closeRecord_get_start .., closeRecord_get_duration ..,
    closeRecord_get_events ..,
    fun k hk1 hk2 hk3 => closeRecord_get_other _ _ _ _ k hk1 hk2 hk3, ?_,
    fun n st kw now2 => timerEvent_get_duration ..,
    fun now2 n kw => eventRecord_get_duration ..⟩
  · simp [List.filter_append, LogEntry.isInfo, hb2]
  · intro e he
    obtain ⟨now2, n, kw, rfl⟩ := trace_mem_shape t body e he
    exact ⟨⟨n, eventRecord_get_name ..⟩, eventRecord_get_start_isSome ..⟩

/-- C6 witness: concrete instantiation of the amended claim with one Timer
event and one plain event. -/
theorem c6_witness :
    kwTruthy ((emptyState "w6").kw) = false
    ∧ serializableFields (closeRecord
        (kwAfter "w6" [("a", Value.num 1)]
          [Instr.timerEnd "w6" "tm" 2 [] 3, Instr.recEvent "w6" 4 "ev" []])
        (trace "w6" [Instr.timerEnd "w6" "tm" 2 [] 3, Instr.recEvent "w6" 4 "ev" []])
        0 9) = true
    ∧ (((runContext "w6" [("a", Value.num 1)] 0
          [Instr.timerEnd "w6" "tm" 2 [] 3, Instr.recEvent "w6" 4 "ev" []]
          none 9 emptyState []).2.1).filter LogEntry.isInfo
        = ([] : List LogEntry).filter LogEntry.isInfo
          ++ [.info (closeRecord
                (kwAfter "w6" [("a", Value.num 1)]
                  [Instr.timerEnd "w6" "tm" 2 [] 3, Instr.recEvent "w6" 4 "ev" []])
                (trace "w6"
                  [Instr.timerEnd "w6" "tm" 2 [] 3, Instr.recEvent "w6" 4 "ev" []])
                0 9)]
      ∧ FieldMap.get (closeRecord
            (kwAfter "w6" [("a", Value.num 1)]
              [Instr.timerEnd "w6" "tm" 2 [] 3, Instr.recEvent "w6" 4 "ev" []])
            (trace "w6"
              [Instr.timerEnd "w6" "tm" 2 [] 3, Instr.recEvent "w6" 4 "ev" []])
            0 9) "start" = some (Value.num 0)
      ∧ FieldMap.get (closeRecord
            (kwAfter "w6" [("a", Value.num 1)]
              [Instr.timerEnd "w6" "tm" 2 [] 3, Instr.recEvent "w6" 4 "ev" []])
            (trace "w6"
              [Instr.timerEnd "w6" "tm" 2 [] 3, Instr.recEvent "w6" 4 "ev" []])
            0 9) "duration" = some (Value.num 9)
      ∧ FieldMap.get (closeRecord
            (kwAfter "w6" [("a", Value.num 1)]
              [Instr.timerEnd "w6" "tm" 2 [] 3, Instr.recEvent "w6" 4 "ev" []])
            (trace "w6"
              [Instr.timerEnd "w6" "tm" 2 [] 3, Instr.recEvent "w6" 4 "ev" []])
            0 9) "events"
          = some (.list ((trace "w6"
              [Instr.timerEnd "w6" "tm" 2 [] 3, Instr.recEvent "w6" 4 "ev" []]).map .dict))
      ∧ (∀ k, k ≠ "events" → k ≠ "start" → k ≠ "duration" →
          FieldMap.get (closeRecord
              (kwAfter "w6" [("a", Value.num 1)]
                [Instr.timerEnd "w6" "tm" 2 [] 3, Instr.recEvent "w6" 4 "ev" []])
              (trace "w6"
                [Instr.timerEnd "w6" "tm" 2 [] 3, Instr.recEvent "w6" 4 "ev" []])
              0 9) k
            = FieldMap.get (kwAfter "w6" [("a", Value.num 1)]
                [Instr.timerEnd "w6" "tm" 2 [] 3, Instr.recEvent "w6" 4 "ev" []]) k)
      ∧ (∀ e, e ∈ trace "w6"
            [Instr.timerEnd "w6" "tm" 2 [] 3, Instr.recEvent "w6" 4 "ev" []] →
          (∃ nm, FieldMap.get e "name" = some (.str nm))
          ∧ (FieldMap.get e "start").isSome = true)
      ∧ (∀ n st kw now2, FieldMap.get (timerEvent n st kw now2) "duration"
          = some (.num (now2 - st)))
      ∧ (∀ now2 n kw, FieldMap.get (eventRecord now2 n kw) "duration"
          = FieldMap.get kw "duration")) := by
  refine ⟨rfl, rfl, ?_⟩
  exact c6_theorem "w6" [("a", Value.num 1)] 0
    [Instr.timerEnd "w6" "tm" 2 [] 3, Instr.recEvent "w6" 4 "ev" []]
    none 9 emptyState [] rfl rfl

/-! Section: Claim C7 -/

/-- C7: the WSGI adapter seeds the context with exactly the four fields
`REMOTE_ADDR`, `PATH_INFO`, `QUERY_STRING` and `thread`, exposes the field
map under `metrics_context` in the environ the handler receives, runs the
handler inside the scope (the handler's recorded events land in the single
emission) and returns the handler's result unchanged. -/
theorem c7_theorem (app : FieldMap → Value → List Instr × Value)
    (environ : FieldMap) (sr : Value) (t : ThreadId) (t0 t1 : Time)
    (s : State) (log : List LogEntry) (ra pinfo qs : Value)
    (h1 : FieldMap.get environ "REMOTE_ADDR" = some ra)
    (h2 : FieldMap.get environ "PATH_INFO" = some pinfo)
    (h3 : FieldMap.get environ "QUERY_STRING" = some qs)
    (hFree : kwTruthy (s t).kw = false)
    (hSer : serializableFields (closeRecord
        (kwAfter t (wsgiSeed ra pinfo qs t)
          (app (FieldMap.set environ "metrics_context"
            (.dict (wsgiSeed ra pinfo qs t))) sr).1)
        (trace t (app (FieldMap.set environ "metrics_context"
            (.dict (wsgiSeed ra pinfo qs t))) sr).1) t0 t1) = true) :
    wsgiSeed ra pinfo qs t
      = [("REMOTE_ADDR", ra), ("PATH_INFO", pinfo), ("QUERY_STRING", qs),
         ("thread", .str t)]
    ∧ (MetricsContextApp.call app environ sr t t0 t1 s log).2.2.2
        = some (app (FieldMap.set environ "metrics_context"
            (.dict (wsgiSeed ra pinfo qs t))) sr).2
    ∧ (MetricsContextApp.call app environ sr t t0 t1 s log).2.2.1 = none
    ∧ ((MetricsContextApp.call app environ sr t t0 t1 s log).2.1).filter
          LogEntry.isInfo
        = log.filter LogEntry.isInfo
          ++ [.info (closeRecord
                (kwAfter t (wsgiSeed ra pinfo qs t)
                  (app (FieldMap.set environ "metrics_context"
                    (.dict (wsgiSeed ra pinfo qs t))) sr).1)
                (trace t (app (FieldMap.set environ "metrics_context"
                    (.dict (wsgiSeed ra pinfo qs t))) sr).1) t0 t1)]
    ∧ (MetricsContextApp.call app environ sr t t0 t1 s log).1 t = ⟨none, none⟩ := by
  obtain ⟨hb1, hb2⟩ := runBody_spec t
    (app (FieldMap.set environ "metrics_context"
      (.dict (wsgiSeed ra pinfo qs t))) sr).1
    (setSlot s t ⟨some (wsgiSeed ra pinfo qs t), some []⟩)
    (log ++ [.debug t "entering new context"]) (wsgiSeed ra pinfo qs t) []
    (by rw [setSlot_self])
  have hb1' : (runBody (setSlot s t ⟨some (wsgiSeed ra pinfo qs t), some []⟩)
      (log ++ [.debug t "entering new context"])
      (app (FieldMap.set environ "metrics_context"
        (.dict (wsgiSeed ra pinfo qs t))) sr).1).1 t
      = ⟨some (kwAfter t (wsgiSeed ra pinfo qs t)
            (app (FieldMap.set environ "metrics_context"
              (.dict (wsgiSeed ra pinfo qs t))) sr).1),
         some (trace t (app (FieldMap.set environ "metrics_context"
              (.dict (wsgiSeed ra pinfo qs t))) sr).1)⟩ := by
    rw [hb1]
    simp
  have hcall : MetricsContextApp.call app environ sr t t0 t1 s log
      = (setSlot (runBody (setSlot s t ⟨some (wsgiSeed ra pinfo qs t), some []⟩)
            (log ++ [.debug t "entering new context"])
            (app (FieldMap.set environ "metrics_context"
              (.dict (wsgiSeed ra pinfo qs t))) sr).1).1 t ⟨none, none⟩,
         (runBody (setSlot s t ⟨some (wsgiSeed ra pinfo qs t), some []⟩)
            (log ++ [.debug t "entering new context"])
            (app (FieldMap.set environ "metrics_context"
              (.dict (wsgiSeed ra pinfo qs t))) sr).1).2
           ++ [.info (closeRecord
                 (kwAfter t (wsgiSeed ra pinfo qs t)
                   (app (FieldMap.set environ "metrics_context"
                     (.dict (wsgiSeed ra pinfo qs t))) sr).1)
                 (trace t (app (FieldMap.set environ "metrics_context"
                     (.dict (wsgiSeed ra pinfo qs t))) sr).1) t0 t1),
               .debug t "leaving context"],
         none,
         some (app (FieldMap.set environ "metrics_context"
           (.dict (wsgiSeed ra pinfo qs t))) sr).2) := by
    unfold MetricsContextApp.call
    rw [h1, h2, h3]
    dsimp only
    rw [contextEnter_free t (wsgiSeed ra pinfo qs t) s log hFree]
    dsimp only
    rw [contextClose_emit t t0 t1 _ _ _ _ hb1' hSer]
  rw [hcall]
  refine ⟨rfl, rfl, rfl, ?_, by simp [setSlot_self]⟩
  simp [List.filter_append, LogEntry.isInfo, hb2]

/-- A concrete wrapped handler used by the C7 witness: it records one event
and returns a response value. -/
def w7app : FieldMap → Value → List Instr × Value :=
  fun _ _ => ([Instr.recEvent "w7" 3 "handled" []], Value.str "resp")

/-- A concrete WSGI environ used by the C7 witness. -/
def w7environ : FieldMap :=
  [("REMOTE_ADDR", Value.str "1.2.3.4"), ("PATH_INFO", Value.str "/x"),
   ("QUERY_STRING", Value.str "q=1")]

/-- C7 witness: concrete adapter invocation. -/
theorem c7_witness :
    FieldMap.get w7environ "REMOTE_ADDR" = some (Value.str "1.2.3.4")
    ∧ kwTruthy ((emptyState "w7").kw) = false
    ∧ (wsgiSeed (Value.str "1.2.3.4") (Value.str "/x") (Value.str "q=1") "w7"
        = [("REMOTE_ADDR", Value.str "1.2.3.4"), ("PATH_INFO", Value.str "/x"),
           ("QUERY_STRING", Value.str "q=1"), ("thread", Value.str "w7")]
      ∧ (MetricsContextApp.call w7app w7environ (Value.num 17) "w7" 0 5
          emptyState []).2.2.2 = some (Value.str "resp")
      ∧ (MetricsContextApp.call w7app w7environ (Value.num 17) "w7" 0 5
          emptyState []).2.2.1 = none
      ∧ ((MetricsContextApp.call w7app w7environ (Value.num 17) "w7" 0 5
          emptyState []).2.1).filter LogEntry.isInfo
          = ([] : List LogEntry).filter LogEntry.isInfo
            ++ [.info (closeRecord
                  (kwAfter "w7"
                    (wsgiSeed (Value.str "1.2.3.4") (Value.str "/x")
                      (Value.str "q=1") "w7")
                    [Instr.recEvent "w7" 3 "handled" []])
                  (trace "w7" [Instr.recEvent "w7" 3 "handled" []]) 0 5)]
      ∧ (MetricsContextApp.call w7app w7environ (Value.num 17) "w7" 0 5
          emptyState []).1 "w7" = ⟨none, none⟩) := by
  refine ⟨rfl, rfl, ?_⟩
  exact c7_theorem w7app w7environ (Value.num 17) "w7" 0 5 emptyState []
    (Value.str "1.2.3.4") (Value.str "/x") (Value.str "q=1") rfl rfl rfl rfl rfl

/-! Section: Claim C8 -/

/-- C8: when the final record has a non-serializable field value, the close
raises `TypeError` to its caller having emitted nothing at all (no partial
emission: the log is exactly unchanged), and the ambient thread-local state
has already been uninstalled before the failure. -/
theorem c8_theorem (t : ThreadId) (t0 t1 : Time) (s : State) (log : List LogEntry)
    (kw : FieldMap) (evs : List FieldMap)
    (h : s t = ⟨some kw, some evs⟩)
    (hBad : serializableFields (closeRecord kw evs t0 t1) = false) :
    Context.close t t0 t1 s log = (setSlot s t ⟨none, none⟩, log, some .typeError)
    ∧ setSlot s t ⟨none, none⟩ t = ⟨none, none⟩ :=
  ⟨contextClose_serFail t t0 t1 s log kw evs h hBad, setSlot_self ..⟩

/-- C8 witness: a context field holding a non-serializable object. -/
theorem c8_witness :
    (setSlot emptyState "w8" ⟨some [("x", Value.obj "o")], some []⟩) "w8"
      = ⟨some [("x", Value.obj "o")], some []⟩
    ∧ serializableFields (closeRecord [("x", Value.obj "o")] [] 0 1) = false
    ∧ (Context.close "w8" 0 1
          (setSlot emptyState "w8" ⟨some [("x", Value.obj "o")], some []⟩) []
        = (setSlot (setSlot emptyState "w8" ⟨some [("x", Value.obj "o")], some []⟩)
             "w8" ⟨none, none⟩, [], some .typeError)
      ∧ setSlot (setSlot emptyState "w8" ⟨some [("x", Value.obj "o")], some []⟩)
          "w8" ⟨none, none⟩ "w8" = ⟨none, none⟩) := by
  refine ⟨rfl, rfl, ?_⟩
  exact c8_theorem "w8" 0 1
    (setSlot emptyState "w8" ⟨some [("x", Value.obj "o")], some []⟩) []
    [("x", Value.obj "o")] [] rfl rfl

/-! Section: Claim C9 -/

/-- C9: close never mutates the event records already appended: the emitted
record carries them verbatim under `events` (each dict equal to what was
appended), and apart from adding `events`, `start` and `duration` the close
changes no key of the context's own field map. -/
theorem c9_theorem (t : ThreadId) (t0 t1 : Time) (s : State) (log : List LogEntry)
    (kw : FieldMap) (evs : List FieldMap)
    (h : s t = ⟨some kw, some evs⟩)
    (hSer : serializableFields (closeRecord kw evs t0 t1) = true) :
    Context.close t t0 t1 s log
      = (setSlot s t ⟨none, none⟩,
         log ++ [.info (closeRecord kw evs t0 t1), .debug t "leaving context"],
         none)
    ∧ FieldMap.get (closeRecord kw evs t0 t1) "events"
        = some (.list (evs.map .dict))
    ∧ (∀ k, k ≠ "events" → k ≠ "start" → k ≠ "duration" →
        FieldMap.get (closeRecord kw evs t0 t1) k = FieldMap.get kw k) :=
  ⟨contextClose_emit t t0 t1 s log kw evs h hSer,
   closeRecord_get_events ..,
   fun k hk1 hk2 hk3 => closeRecord_get_other _ _ _ _ k hk1 hk2 hk3⟩

/-- C9 witness: a concrete close with one already-appended event. -/
theorem c9_witness :
    (setSlot emptyState "w9"
        ⟨some [("a", Value.num 1)],
         some [[("name", Value.str "e"), ("start", Value.num 2)]]⟩) "w9"
      = ⟨some [("a", Value.num 1)],
         some [[("name", Value.str "e"), ("start", Value.num 2)]]⟩
    ∧ serializableFields (closeRecord [("a", Value.num 1)]
        [[("name", Value.str "e"), ("start", Value.num 2)]] 0 4) = true
    ∧ (Context.close "w9" 0 4
          (setSlot emptyState "w9"
            ⟨some [("a", Value.num 1)],
             some [[("name", Value.str "e"), ("start", Value.num 2)]]⟩) []
        = (setSlot (setSlot emptyState "w9"
              ⟨some [("a", Value.num 1)],
               some [[("name", Value.str "e"), ("start", Value.num 2)]]⟩)
             "w9" ⟨none, none⟩,
           [] ++ [.info (closeRecord [("a", Value.num 1)]
                    [[("name", Value.str "e"), ("start", Value.num 2)]] 0 4),
                  .debug "w9" "leaving context"],
           none)
      ∧ FieldMap.get (closeRecord [("a", Value.num 1)]
            [[("name", Value.str "e"), ("start", Value.num 2)]] 0 4) "events"
          = some (.list ([[("name", Value.str "e"), ("start", Value.num 2)]].map .dict))
      ∧ (∀ k, k ≠ "events" → k ≠ "start" → k ≠ "duration" →
          FieldMap.get (closeRecord [("a", Value.num 1)]
              [[("name", Value.str "e"), ("start", Value.num 2)]] 0 4) k
            = FieldMap.get [("a", Value.num 1)] k)) := by
  refine ⟨rfl, rfl, ?_⟩
  exact c9_theorem "w9" 0 4
    (setSlot emptyState "w9"
      ⟨some [("a", Value.num 1)],
       some [[("name", Value.str "e"), ("start", Value.num 2)]]⟩) []
    [("a", Value.num 1)] [[("name", Value.str "e"), ("start", Value.num 2)]] rfl rfl

/-! Section: Claim C10 -/

/-- C10: at Timer scope close, the recorded event has `name`, `start` and
`duration` unconditionally overwritten with the constructor name, the
scope-entry time and the elapsed time — whatever the constructor keywords or
the body's assignments put under those keys — while every other key of the
timer's dict passes through to the recorded event unchanged. -/
theorem c10_theorem (t : ThreadId) (name : String) (kw0 : FieldMap)
    (sets : List (String × Value)) (bodyExc : Option PyExc) (start now : Time)
    (s : State) (log : List LogEntry) (evs : List FieldMap)
    (hActive : (s t).events = some evs) :
    runTimerScope t name kw0 sets bodyExc start now s log
      = (setSlot s t ⟨(s t).kw,
           some (evs ++ [timerEvent name start (applySets kw0 sets) now])⟩,
         log, bodyExc)
    ∧ FieldMap.get (timerEvent name start (applySets kw0 sets) now) "name"
        = some (.str name)
    ∧ FieldMap.get (timerEvent name start (applySets kw0 sets) now) "start"
        = some (.num start)
    ∧ FieldMap.get (timerEvent name start (applySets kw0 sets) now) "duration"
        = some (.num (now - start))
    ∧ (∀ k, k ≠ "name" → k ≠ "start" → k ≠ "duration" →
        FieldMap.get (timerEvent name start (applySets kw0 sets) now) k
          = FieldMap.get (applySets kw0 sets) k) := by
  refine ⟨?_, timerEvent_get_name .., timerEvent_get_start ..,
    timerEvent_get_duration ..,
    fun k hk1 hk2 hk3 => timerEvent_get_other _ _ _ _ k hk1 hk2 hk3⟩
  unfold runTimerScope Timer.close
  rw [event_ctx t now name _ s log evs hActive]
  simp [timerEvent]

/-- C10 witness: bogus `name`, `start` and `duration` values placed by the
constructor and the body are discarded, the extra key `z` passes through. -/
theorem c10_witness :
    ((setSlot emptyState "wa" ⟨some [], some []⟩) "wa").events = some []
    ∧ (runTimerScope "wa" "tm" [("name", Value.str "bogus")]
          [("start", Value.num 99), ("z", Value.num 6)] none 1 4
          (setSlot emptyState "wa" ⟨some [], some []⟩) []
        = (setSlot (setSlot emptyState "wa" ⟨some [], some []⟩) "wa"
             ⟨((setSlot emptyState "wa" ⟨some [], some []⟩) "wa").kw,
              some ([] ++ [timerEvent "tm" 1
                (applySets [("name", Value.str "bogus")]
                  [("start", Value.num 99), ("z", Value.num 6)]) 4])⟩,
           [], none)
      ∧ FieldMap.get (timerEvent "tm" 1
            (applySets [("name", Value.str "bogus")]
              [("start", Value.num 99), ("z", Value.num 6)]) 4) "name"
          = some (Value.str "tm")
      ∧ FieldMap.get (timerEvent "tm" 1
            (applySets [("name", Value.str "bogus")]
              [("start", Value.num 99), ("z", Value.num 6)]) 4) "start"
          = some (Value.num 1)
      ∧ FieldMap.get (timerEvent "tm" 1
            (applySets [("name", Value.str "bogus")]
              [("start", Value.num 99), ("z", Value.num 6)]) 4) "duration"
          = some (Value.num 3)
      ∧ (∀ k, k ≠ "name" → k ≠ "start" → k ≠ "duration" →
          FieldMap.get (timerEvent "tm" 1
              (applySets [("name", Value.str "bogus")]
                [("start", Value.num 99), ("z", Value.num 6)]) 4) k
            = FieldMap.get (applySets [("name", Value.str "bogus")]
                [("start", Value.num 99), ("z", Value.num 6)]) k)) := by
  refine ⟨rfl, ?_⟩
  exact c10_theorem "wa" "tm" [("name", Value.str "bogus")]
    [("start", Value.num 99), ("z", Value.num 6)] none 1 4
    (setSlot emptyState "wa" ⟨some [], some []⟩) [] [] rfl

end Metrics
